import Mathlib

/-!
Verification of the Maryland Case Viewer repository.

The repository holds two near-duplicate single-page dashboards:
`case_viewer_maryland.py` (streamlit) and `modern_case_viewer.py` (nicegui).
Both share the same column-mapping heuristics (`load_and_map`), the amount
parser (`parse_amount`) and the flexible date parser (`parse_date_flexible`),
and each has its own filter pass (`apply_filters`, resp.
`apply_filters_handler`).

This file is a shallow embedding of that logic:

* spreadsheet cells are `String`s (gspread `get_all_values` returns strings);
* Python `float` values produced by `parse_amount` are modelled exactly by
  `Dec` (an integer numerator over a power of ten); the strings exercised
  here are short decimals, where the binary-float rounding performed by
  Python cannot change any comparison against the integer thresholds used
  by the app;
* `datetime.date` is modelled by `Date` (year/month/day with the
  `datetime` validity check);
* the pandas fallback `pd.to_datetime(s, errors="coerce")` used by
  `parse_date_flexible` is a third-party library call and is modelled as an
  explicit function parameter `fb : String → Option Date`;
* character predicates (`\d` in the regexes, `str.lower`, `str.title`) are
  modelled on ASCII, which covers every header and cell the app handles.
-/

/-! ## Characters and strings -/

/-- ASCII decimal digit test, the `\d` of the Python regexes restricted to
ASCII (`Char.isDigit` agrees, but this form keeps the numeric bounds
available to arithmetic proofs). -/
def isDigitC (c : Char) : Bool := decide (48 ≤ c.toNat ∧ c.toNat ≤ 57)

/-- Numeric value of an ASCII digit character. -/
def digitVal (c : Char) : Nat := c.toNat - 48

/-- Value of a digit string read most-significant first, the way Python
`int`/`float` read a run of digits. -/
def digitsToNat (cs : List Char) : Nat := cs.foldl (fun a c => 10 * a + digitVal c) 0

/-- Whitespace stripped by Python `str.strip()`. -/
def isPyWS (c : Char) : Bool :=
  decide (c = ' ' ∨ c = '\t' ∨ c = '\n' ∨ c = '\r' ∨ c = '\x0b' ∨ c = '\x0c')

/-- Python `str.strip()` on a character list. -/
def trimChars (cs : List Char) : List Char :=
  ((cs.dropWhile isPyWS).reverse.dropWhile isPyWS).reverse

/-- Python `str.strip()`. -/
def pyStrip (s : String) : String := String.mk (trimChars s.toList)

/-- Python `s.strip().lower()`, used by both apps to normalize cells before
equality comparisons (ASCII lowering). -/
def trimLower (s : String) : String :=
  String.mk ((trimChars s.toList).map Char.toLower)

/-- One normalized character of `normalize_columns`: after the strip, the
source lowers the header and then replaces `"\n"` by `" "` and `" "` by
`"_"`; both replacements are single-character, so they act pointwise. -/
def normChar (c : Char) : Char :=
  let c := c.toLower
  if c = '\n' ∨ c = ' ' then '_' else c

/-- Function `normalize_columns` applied to one header:
`c.strip().lower().replace("\n", " ").replace(" ", "_")`. -/
def normalizeCol (c : String) : String :=
  String.mk ((trimChars c.toList).map normChar)

/-- Python substring containment `pat in hay` on character lists. -/
def listContains : List Char → List Char → Bool
  | hay, pat =>
    if pat.isPrefixOf hay then true
    else
      match hay with
      | [] => false
      | _ :: t => listContains t pat

/-- Python substring containment `pat in s`. -/
def containsSub (s pat : String) : Bool := listContains s.toList pat.toList

/-- Python `str.title()` on ASCII: a letter is uppercased when the previous
character is not a letter, lowercased otherwise. Used by the nicegui status
filter (`.str.title()`). -/
def titleCaseGo : Bool → List Char → List Char
  | _, [] => []
  | prev, c :: t =>
    let isAl := c.isAlpha
    (if isAl then (if prev then c.toLower else c.toUpper) else c) :: titleCaseGo isAl t

/-- Python `str.title()` (ASCII). -/
def titleCase (s : String) : String := String.mk (titleCaseGo false s.toList)

/-! ## Exact decimal numbers (model of the Python floats used by the app) -/

/-- Exact decimal `num / 10 ^ exp`, the model of the `float` values produced
by `parse_amount` (every accepted input is a finite decimal). -/
structure Dec where
  num : Int
  exp : Nat
deriving DecidableEq

/-- The rational value of a `Dec`. -/
def Dec.toQ (d : Dec) : ℚ := (d.num : ℚ) / (10 : ℚ) ^ d.exp

/-- Decidable `≤` on `Dec` by cross multiplication (both denominators are
positive powers of ten). -/
def Dec.ble (a b : Dec) : Bool :=
  decide (a.num * (10 : Int) ^ b.exp ≤ b.num * (10 : Int) ^ a.exp)

/-- Boolean `Dec.ble` agrees with `≤` on the rational values. -/
theorem Dec.ble_iff (a b : Dec) : a.ble b = true ↔ a.toQ ≤ b.toQ := by
  unfold Dec.ble Dec.toQ
  rw [decide_eq_true_iff]
  rw [div_le_div_iff₀ (by positivity) (by positivity)]
  constructor
  · intro h; exact_mod_cast h
  · intro h; exact_mod_cast h

/-! ## `parse_amount` -/

/-- The regex step of `parse_amount`:
`re.sub(r"[^\d.\-]", "", str(s))` keeps digits, `'.'` and `'-'`. -/
def keepNumChars (s : String) : List Char :=
  s.toList.filter (fun c => isDigitC c || c = '.' || c = '-')

/-- Python `float` on an unsigned string drawn from the alphabet
`digits ∪ {'.', '-'}`: a digit run, optionally followed by `'.'` and a
fraction digit run, at least one digit overall; anything else (a stray
`'-'` or a second `'.'`) raises `ValueError`. -/
def parseUFloat (cs : List Char) : Option Dec :=
  let ip := cs.takeWhile isDigitC
  let rest := cs.drop ip.length
  match rest with
  | [] => if ip.isEmpty then none else some ⟨digitsToNat ip, 0⟩
  | '.' :: fp =>
    if fp.all isDigitC ∧ (ip ≠ [] ∨ fp ≠ []) then
      some ⟨(digitsToNat ip) * (10 : Int) ^ fp.length + digitsToNat fp, fp.length⟩
    else none
  | _ => none

/-- Python `float` on a string drawn from `digits ∪ {'.', '-'}`:
an optional leading sign, then `parseUFloat`. -/
def pyFloat? : List Char → Option Dec
  | '-' :: rest => (parseUFloat rest).map (fun d => ⟨-d.num, d.exp⟩)
  | cs => parseUFloat cs

/-- Function `parse_amount` of both sources: strip every character that is not a
digit, `'.'` or `'-'`, then `float(...)`; any failure yields `0.0`.
(The cells are strings, so the `pd.isna` guard never fires.) -/
def parse_amount (s : String) : Dec :=
  (pyFloat? (keepNumChars s)).getD ⟨0, 0⟩

/-! ## Dates and `parse_date_flexible` -/

/-- A calendar date as `datetime.date` stores it. -/
structure Date where
  year : Nat
  month : Nat
  day : Nat
deriving DecidableEq

/-- Python `datetime.date` comparison (lexicographic on year, month, day). -/
def Date.ble (a b : Date) : Bool :=
  decide (a.year < b.year ∨ (a.year = b.year ∧
    (a.month < b.month ∨ (a.month = b.month ∧ a.day ≤ b.day))))

/-- Gregorian leap-year rule used by `datetime`. -/
def isLeap (y : Nat) : Bool :=
  decide (y % 4 = 0 ∧ (y % 100 ≠ 0 ∨ y % 400 = 0))

/-- Days in a month per `datetime`. -/
def daysInMonth (y m : Nat) : Nat :=
  if m = 2 then (if isLeap y then 29 else 28)
  else if m = 4 ∨ m = 6 ∨ m = 9 ∨ m = 11 then 30 else 31

/-- The `datetime.datetime(year, month, day)` constructor check performed at
the end of `strptime`: `MINYEAR = 1 ≤ year ≤ 9999 = MAXYEAR`, valid month
and day; on failure `strptime` raises and the format is rejected. -/
def mkDate? (y m d : Nat) : Option Date :=
  if 1 ≤ y ∧ y ≤ 9999 ∧ 1 ≤ m ∧ m ≤ 12 ∧ 1 ≤ d ∧ d ≤ daysInMonth y m then
    some ⟨y, m, d⟩
  else none

/-- The CPython `strptime` regex for `%m` is `1[0-2]|0[1-9]|[1-9]`; the
alternatives are tried in that order, so the two-digit readings come before
the one-digit one. Each candidate is the month value with the unconsumed
input. -/
def monthCands : List Char → List (Nat × List Char)
  | c1 :: c2 :: rest =>
    (if c1 = '1' ∧ (c2 = '0' ∨ c2 = '1' ∨ c2 = '2') then [(10 + digitVal c2, rest)] else []) ++
    (if c1 = '0' ∧ isDigitC c2 ∧ c2 ≠ '0' then [(digitVal c2, rest)] else []) ++
    (if isDigitC c1 ∧ c1 ≠ '0' then [(digitVal c1, c2 :: rest)] else [])
  | [c1] => if isDigitC c1 ∧ c1 ≠ '0' then [(digitVal c1, [])] else []
  | [] => []

/-- The CPython `strptime` regex for `%d` is `3[01]|[12]\d|0[1-9]|[1-9]`,
alternatives in order. -/
def dayCands : List Char → List (Nat × List Char)
  | c1 :: c2 :: rest =>
    (if c1 = '3' ∧ (c2 = '0' ∨ c2 = '1') then [(30 + digitVal c2, rest)] else []) ++
    (if (c1 = '1' ∨ c1 = '2') ∧ isDigitC c2 then [(10 * digitVal c1 + digitVal c2, rest)] else []) ++
    (if c1 = '0' ∧ isDigitC c2 ∧ c2 ≠ '0' then [(digitVal c2, rest)] else []) ++
    (if isDigitC c1 ∧ c1 ≠ '0' then [(digitVal c1, c2 :: rest)] else [])
  | [c1] => if isDigitC c1 ∧ c1 ≠ '0' then [(digitVal c1, [])] else []
  | [] => []

/-- The CPython `strptime` regex for `%Y` is exactly four digits. -/
def year4 : List Char → Option (Nat × List Char)
  | a :: b :: c :: d :: rest =>
    if isDigitC a ∧ isDigitC b ∧ isDigitC c ∧ isDigitC d then
      some (1000 * digitVal a + 100 * digitVal b + 10 * digitVal c + digitVal d, rest)
    else none
  | _ => none

/-- The CPython `strptime` regex for `%y` is exactly two digits; the century
pivot maps `00`–`68` to `2000`–`2068` and `69`–`99` to `1969`–`1999`. -/
def year2 : List Char → Option (Nat × List Char)
  | a :: b :: rest =>
    if isDigitC a ∧ isDigitC b then
      let v := 10 * digitVal a + digitVal b
      some (if v ≤ 68 then 2000 + v else 1900 + v, rest)
    else none
  | _ => none

/-- Consume one literal separator character. -/
def sepOk (sep : Char) : List Char → Option (List Char)
  | c :: rest => if c = sep then some rest else none
  | [] => none

/-- Positional match of `"%m<sep>%d<sep>%Y"` against the whole string,
returning `(year, month, day)`.  The alternative month/day widths are tried
in the regex order; the whole input must be consumed (`strptime` raises
`unconverted data remains` otherwise, and for these fixed-tail formats the
earlier alternatives are the longer ones, so prefix matching plus the
length check coincides with full matching). -/
def parseMDY4pos (sep : Char) (cs : List Char) : Option (Nat × Nat × Nat) :=
  (monthCands cs).findSome? fun mc =>
    (sepOk sep mc.2).bind fun r1 =>
      (dayCands r1).findSome? fun dc =>
        (sepOk sep dc.2).bind fun r2 =>
          (year4 r2).bind fun yp =>
            if yp.2 = [] then some (yp.1, mc.1, dc.1) else none

/-- Positional match of `"%m/%d/%y"` (two-digit year with century pivot). -/
def parseMDY2pos (sep : Char) (cs : List Char) : Option (Nat × Nat × Nat) :=
  (monthCands cs).findSome? fun mc =>
    (sepOk sep mc.2).bind fun r1 =>
      (dayCands r1).findSome? fun dc =>
        (sepOk sep dc.2).bind fun r2 =>
          (year2 r2).bind fun yp =>
            if yp.2 = [] then some (yp.1, mc.1, dc.1) else none

/-- Positional match of `"%Y<sep>%m<sep>%d"`. -/
def parseYMDpos (sep : Char) (cs : List Char) : Option (Nat × Nat × Nat) :=
  (year4 cs).bind fun yp =>
    (sepOk sep yp.2).bind fun r1 =>
      (monthCands r1).findSome? fun mc =>
        (sepOk sep mc.2).bind fun r2 =>
          (dayCands r2).findSome? fun dc =>
            if dc.2 = [] then some (yp.1, mc.1, dc.1) else none

/-- One `strptime` attempt: positional regex match, then the
`datetime` constructor validity check. -/
def runFmt (pos : List Char → Option (Nat × Nat × Nat)) (cs : List Char) : Option Date :=
  (pos cs).bind fun t => mkDate? t.1 t.2.1 t.2.2

/-- The format list of `parse_date_flexible`:
`["%m/%d/%Y", "%m/%d/%y", "%Y-%m-%d", "%Y/%m/%d", "%m-%d-%Y"]`, each tried
in order, first success wins. -/
def tryFormats (cs : List Char) : Option Date :=
  match runFmt (parseMDY4pos '/') cs with
  | some d => some d
  | none =>
    match runFmt (parseMDY2pos '/') cs with
    | some d => some d
    | none =>
      match runFmt (parseYMDpos '-') cs with
      | some d => some d
      | none =>
        match runFmt (parseYMDpos '/') cs with
        | some d => some d
        | none => runFmt (parseMDY4pos '-') cs

/-- Function `parse_date_flexible` of both sources.  The cells are strings, so the
`pd.isna` guard never fires; the string is stripped, the empty string is
`None`, then the five formats are tried in order and on failure the pandas
best-effort parse `pd.to_datetime(s, errors="coerce")` runs — that external
call is the parameter `fb`, applied to the stripped string. -/
def parse_date_flexible (fb : String → Option Date) (v : String) : Option Date :=
  let s := pyStrip v
  if s = "" then none
  else
    match tryFormats s.toList with
    | some d => some d
    | none => fb s

/-! ## The column mapper (`load_and_map`) -/

/-- The eight semantic field keys assigned by the mapping loop of
`load_and_map` (identical in both sources). -/
inductive FieldKey
  | case_number
  | case_status
  | judgment_amount
  | entry_date
  | court_system
  | case_type
  | case_link
  | address
deriving DecidableEq

/-- The `mapping` dictionary built by `load_and_map`: each semantic key
optionally holds a normalized column name. -/
structure Mapping where
  case_number : Option String := none
  case_status : Option String := none
  judgment_amount : Option String := none
  entry_date : Option String := none
  court_system : Option String := none
  case_type : Option String := none
  case_link : Option String := none
  address : Option String := none
deriving DecidableEq

/-- Dictionary lookup `mapping.get(k)`. -/
def Mapping.get (m : Mapping) : FieldKey → Option String
  | .case_number => m.case_number
  | .case_status => m.case_status
  | .judgment_amount => m.judgment_amount
  | .entry_date => m.entry_date
  | .court_system => m.court_system
  | .case_type => m.case_type
  | .case_link => m.case_link
  | .address => m.address

/-- The substring rule each normalized header is tested against, one per
semantic key, exactly as in the `for c in norm_cols` loop. -/
def keyRule (k : FieldKey) (c : String) : Bool :=
  match k with
  | .case_number => containsSub c "case" && (containsSub c "num" || containsSub c "number")
  | .case_status => containsSub c "status"
  | .judgment_amount => containsSub c "amount" || containsSub c "judgment"
  | .entry_date => containsSub c "date"
  | .court_system => containsSub c "court"
  | .case_type => containsSub c "type"
  | .case_link => containsSub c "link" || containsSub c "url"
  | .address => containsSub c "address"

/-- One iteration of the mapping loop: every key whose rule matches the
normalized header is (re)assigned to it — later headers overwrite earlier
ones. -/
def mapStep (m : Mapping) (c : String) : Mapping where
  case_number := if keyRule .case_number c then some c else m.case_number
  case_status := if keyRule .case_status c then some c else m.case_status
  judgment_amount := if keyRule .judgment_amount c then some c else m.judgment_amount
  entry_date := if keyRule .entry_date c then some c else m.entry_date
  court_system := if keyRule .court_system c then some c else m.court_system
  case_type := if keyRule .case_type c then some c else m.case_type
  case_link := if keyRule .case_link c then some c else m.case_link
  address := if keyRule .address c then some c else m.address

/-- The mapping part of `load_and_map`: normalize the headers, then scan
them in order, last match winning.  (The download itself is out-of-scope
I/O; this is the whole `mapping` computation run on the header row.) -/
def map_columns (headers : List String) : Mapping :=
  (headers.map normalizeCol).foldl mapStep {}

/-! ## Tables, cells and criteria -/

/-- A loaded spreadsheet: the raw header row and the data rows, all cells
text, as `get_all_values` delivers them. -/
structure Table where
  headers : List String
  rows : List (List String)

/-- The normalized column names (`df.columns` after `load_and_map`). -/
def normCols (t : Table) : List String := t.headers.map normalizeCol

/-- Cell of `row` in column `c` (pandas label lookup over the normalized
columns; the nicegui variant uses `row.get(col, "")`, hence the `""`
default). -/
def getCell (cols : List String) (row : List String) (c : String) : String :=
  match (cols.zip row).find? (fun p => p.1 = c) with
  | some p => p.2
  | none => ""

/-- Columnwise cell update `df[c] = df[c].apply(f)` restricted to one row. -/
def setCol (cols : List String) (c : String) (f : String → String) (row : List String) : List String :=
  ((cols.zip row).map (fun p => if p.1 = c then f p.2 else p.2)) ++ row.drop cols.length

/-- The filter criteria snapshot taken when the user presses Apply: the
four select values (strings, `"All"` disabling a filter) and the optional
date bounds. -/
structure Criteria where
  status_select : String
  court_select : String
  type_select : String
  amount_select : String
  start_date : Option Date
  end_date : Option Date

/-- Python `int(re.sub(r"[^\d]", "", amount_select))`: the digits of the selected
amount option.  (On a digit-free label Python would raise; every non-`All`
option of the app contains digits.) -/
def threshold (sel : String) : Nat :=
  digitsToNat (sel.toList.filter isDigitC)

/-- Truthy lookup `mapping.get(k)` as Python evaluates it in a condition:
a missing key and the empty string are both falsy. -/
def Mapping.getTruthy (m : Mapping) (k : FieldKey) : Option String :=
  match m.get k with
  | some c => if c = "" then none else some c
  | none => none

/-- The streamlit guard `mapping.get(k) and mapping[k] in d.columns`. -/
def Mapping.getCol (m : Mapping) (k : FieldKey) (cols : List String) : Option String :=
  match m.getTruthy k with
  | some c => if c ∈ cols then some c else none
  | none => none

/-- The canonical display order of `apply_filters` / the nicegui table:
`["case_number", "case_status", "judgment_amount", "entry_date",
"court_system", "case_type", "address", "case_link"]`. -/
def displayOrder : List FieldKey :=
  [.case_number, .case_status, .judgment_amount, .entry_date,
   .court_system, .case_type, .address, .case_link]

/-! ## Output formatting -/

/-- ASCII digit character for a value below ten. -/
def digitChar (d : Nat) : Char := Char.ofNat (48 + d)

/-- Little-endian digit characters of `n` (with fuel, so the kernel can
evaluate it); empty for `0`. -/
def natDigitsAux : Nat → Nat → List Char
  | 0, _ => []
  | _, 0 => []
  | fuel + 1, n => digitChar (n % 10) :: natDigitsAux fuel (n / 10)

/-- Decimal rendering of a natural number. -/
def natStr (n : Nat) : String :=
  if n = 0 then "0" else String.mk (natDigitsAux (n + 1) n).reverse

/-- Zero-pad to width `w` (the `%02d`-style padding of `strftime`/format
specs). -/
def padZ (w : Nat) (n : Nat) : String :=
  let s := natStr n
  String.mk (List.replicate (w - s.length) '0') ++ s

/-- Insert a thousands separator after every third little-endian digit, the
`,` option of the Python format spec. -/
def group3 : List Char → List Char
  | a :: b :: c :: d :: rest => a :: b :: c :: ',' :: group3 (d :: rest)
  | l => l

/-- Decimal rendering with thousands separators. -/
def natCommas (n : Nat) : String :=
  if n = 0 then "0" else String.mk (group3 (natDigitsAux (n + 1) n)).reverse

/-- Python `f"$\x7bx:,.2f\x7d"`: two decimals, thousands separators, sign between the
dollar sign and the digits.  The value is rounded to whole cents; ties
(which no finite binary float produces exactly anyway) round half-to-even
like Python's float formatting. -/
def formatCurrency (x : Dec) : String :=
  let n : Int := x.num * 100
  let p : Int := (10 : Int) ^ x.exp
  let q : Int := n.ediv p
  let r : Int := n.emod p
  let cents : Int :=
    if 2 * r < p then q
    else if p < 2 * r then q + 1
    else if q.emod 2 = 0 then q else q + 1
  let sign : String := if cents < 0 then "-" else ""
  let a : Nat := cents.natAbs
  "$" ++ sign ++ natCommas (a / 100) ++ "." ++ padZ 2 (a % 100)

/-- Python `strftime("%Y-%m-%d")`: the ISO date rendering used for display. -/
def isoDate (d : Date) : String :=
  padZ 4 d.year ++ "-" ++ padZ 2 d.month ++ "-" ++ padZ 2 d.day

/-! ## The streamlit filter pass (`apply_filters` in
`case_viewer_maryland.py`) -/

/-- The module-level normalization run right after `load_and_map`:
`df[status_col] = df[status_col].astype(str).str.strip().str.lower()`
when the status column is mapped and present. -/
def loadStatusNorm (m : Mapping) (cols : List String) (rows : List (List String)) : List (List String) :=
  match m.getCol .case_status cols with
  | some c => rows.map (setCol cols c trimLower)
  | none => rows

/-- Column `_amount_num` of one row: `parse_amount` of the mapped amount cell, the
scalar `0.0` when no amount column is mapped. -/
def sAmountNum (m : Mapping) (cols : List String) (r : List String) : Dec :=
  match m.getCol .judgment_amount cols with
  | some c => parse_amount (getCell cols r c)
  | none => ⟨0, 0⟩

/-- Column `_entry_date_parsed` of one row: `parse_date_flexible` of the mapped
date cell, the scalar `None` when no date column is mapped. -/
def sDParse (fb : String → Option Date) (m : Mapping) (cols : List String) (r : List String) : Option Date :=
  match m.getCol .entry_date cols with
  | some c => parse_date_flexible fb (getCell cols r c)
  | none => none

/-- Status filter: when a non-`"All"` status is selected and the status
column is mapped, keep the rows whose (already lowercased) status cell
equals the lowercased selection. -/
def sFilterStatus (crit : Criteria) (m : Mapping) (cols : List String) (rows : List (List String)) : List (List String) :=
  if crit.status_select ≠ "All" then
    match m.getCol .case_status cols with
    | some c => rows.filter (fun r => getCell cols r c = trimLower crit.status_select)
    | none => rows
  else rows

/-- Court filter: trimmed, lowercased equality. -/
def sFilterCourt (crit : Criteria) (m : Mapping) (cols : List String) (rows : List (List String)) : List (List String) :=
  if crit.court_select ≠ "All" then
    match m.getCol .court_system cols with
    | some c => rows.filter (fun r => trimLower (getCell cols r c) = trimLower crit.court_select)
    | none => rows
  else rows

/-- Case-type filter: trimmed, lowercased equality. -/
def sFilterType (crit : Criteria) (m : Mapping) (cols : List String) (rows : List (List String)) : List (List String) :=
  if crit.type_select ≠ "All" then
    match m.getCol .case_type cols with
    | some c => rows.filter (fun r => trimLower (getCell cols r c) = trimLower crit.type_select)
    | none => rows
  else rows

/-- Amount filter: applied whenever the selection is not `"All"`, with no
mapping guard — it compares `_amount_num` (which is the scalar `0.0` when
no amount column is mapped) against the digits of the selected option. -/
def sFilterAmount (crit : Criteria) (m : Mapping) (cols : List String) (rows : List (List String)) : List (List String) :=
  if crit.amount_select ≠ "All" then
    rows.filter (fun r => Dec.ble ⟨(threshold crit.amount_select : Int), 0⟩ (sAmountNum m cols r))
  else rows

/-- Lower-bound date filter `x is not None and x >= start_date`. -/
def dateStart (dp : List String → Option Date) (bound : Option Date) (rows : List (List String)) : List (List String) :=
  match bound with
  | some sd => rows.filter (fun r => match dp r with | some x => Date.ble sd x | none => false)
  | none => rows

/-- Upper-bound date filter `x is not None and x <= end_date`. -/
def dateEnd (dp : List String → Option Date) (bound : Option Date) (rows : List (List String)) : List (List String) :=
  match bound with
  | some ed => rows.filter (fun r => match dp r with | some x => Date.ble x ed | none => false)
  | none => rows

/-- Date range filter of the streamlit pass: guarded by
`d["_entry_date_parsed"].notnull().any()` — it runs only when at least one
row surviving the earlier filters has a parseable date. -/
def sFilterDate (fb : String → Option Date) (crit : Criteria) (m : Mapping) (cols : List String) (rows : List (List String)) : List (List String) :=
  if rows.any (fun r => (sDParse fb m cols r).isSome) then
    dateEnd (sDParse fb m cols) crit.end_date (dateStart (sDParse fb m cols) crit.start_date rows)
  else rows

/-- The raw rows surviving all five streamlit predicates, in order. -/
def streamlitSurvivors (fb : String → Option Date) (crit : Criteria) (m : Mapping) (cols : List String) (rows : List (List String)) : List (List String) :=
  sFilterDate fb crit m cols
    (sFilterAmount crit m cols
      (sFilterType crit m cols
        (sFilterCourt crit m cols
          (sFilterStatus crit m cols rows))))

/-- The display columns `display_cols`: the mapped, present columns in
canonical order. -/
def displayColsOf (m : Mapping) (cols : List String) : List String :=
  displayOrder.filterMap (fun k => m.getCol k cols)

/-- The streamlit entry-date display cell,
`x.strftime("%Y-%m-%d") if isinstance(x, (date, datetime)) else str(x)`:
the display table holds the raw text cells (never `date` objects), so the
`isinstance` branch is dead and the raw string passes through. -/
def sFmtDateCell (v : String) : String := v

/-- The streamlit link display cell: a markdown link, empty when blank. -/
def sFmtLinkCell (v : String) : String :=
  if pyStrip v = "" then "" else "[View Case](" ++ v ++ ")"

/-- The amount reformat (`d_display[amount_col] = ...`) applied to one
display cell of column `c`, active when `"judgment_amount" in mapping` and
its column is among the display columns. -/
def sFmtAmountStep (m : Mapping) (dcols : List String) (c : String) (v : String) : String :=
  match m.judgment_amount with
  | some ac => if ac ∈ dcols ∧ c = ac then formatCurrency (parse_amount v) else v
  | none => v

/-- The entry-date reformat applied to one display cell of column `c`. -/
def sFmtDateStep (m : Mapping) (dcols : List String) (c : String) (v : String) : String :=
  match m.entry_date with
  | some dc => if dc ∈ dcols ∧ c = dc then sFmtDateCell v else v
  | none => v

/-- The link reformat applied to one display cell of column `c`. -/
def sFmtLinkStep (m : Mapping) (dcols : List String) (c : String) (v : String) : String :=
  match m.case_link with
  | some lc => if lc ∈ dcols ∧ c = lc then sFmtLinkCell v else v
  | none => v

/-- The three columnwise reformats in source order: amount, then entry
date, then link. -/
def sFmtCell (m : Mapping) (dcols : List String) (c : String) (v : String) : String :=
  sFmtLinkStep m dcols c (sFmtDateStep m dcols c (sFmtAmountStep m dcols c v))

/-- One display row of the streamlit pass: the projection of a surviving
row onto the display columns, each cell run through the reformats. -/
def sDisplayRow (m : Mapping) (cols : List String) (r : List String) : List String :=
  (displayColsOf m cols).map (fun c => sFmtCell m (displayColsOf m cols) c (getCell cols r c))

/-- Function `apply_filters` of `case_viewer_maryland.py`: filter, project, format.
Returns the display column names with the display rows. -/
def apply_filters (fb : String → Option Date) (crit : Criteria) (m : Mapping) (cols : List String) (rows : List (List String)) : List String × List (List String) :=
  (displayColsOf m cols,
   (streamlitSurvivors fb crit m cols rows).map (sDisplayRow m cols))

/-- The whole streamlit pipeline on a loaded table: compute the mapping,
normalize the status column at load time, then run `apply_filters`. -/
def streamlitPass (fb : String → Option Date) (crit : Criteria) (t : Table) : List String × List (List String) :=
  apply_filters fb crit (map_columns t.headers) (normCols t)
    (loadStatusNorm (map_columns t.headers) (normCols t) t.rows)

/-! ## The nicegui filter pass (`apply_filters_handler` in
`modern_case_viewer.py`) -/

/-- A display row of the nicegui table: the dict `r` keyed by semantic
field keys (absent keys were never set). -/
structure DRow where
  case_number : Option String := none
  case_status : Option String := none
  judgment_amount : Option String := none
  entry_date : Option String := none
  court_system : Option String := none
  case_type : Option String := none
  case_link : Option String := none
  address : Option String := none
deriving DecidableEq

/-- Key lookup in a nicegui display row. -/
def DRow.get (r : DRow) : FieldKey → Option String
  | .case_number => r.case_number
  | .case_status => r.case_status
  | .judgment_amount => r.judgment_amount
  | .entry_date => r.entry_date
  | .court_system => r.court_system
  | .case_type => r.case_type
  | .case_link => r.case_link
  | .address => r.address

/-- Column `_amount_num` of the nicegui pass (`if mapping.get("judgment_amount")`
— the truthiness check only, no column-presence guard). -/
def mAmountNum (m : Mapping) (cols : List String) (r : List String) : Dec :=
  match m.getTruthy .judgment_amount with
  | some c => parse_amount (getCell cols r c)
  | none => ⟨0, 0⟩

/-- Column `_entry_date_parsed` of the nicegui pass; unmapped gives `pd.NaT`,
which the bound comparisons below treat just like an unparseable date
(`NaT >= d` is false). -/
def mDParse (fb : String → Option Date) (m : Mapping) (cols : List String) (r : List String) : Option Date :=
  match m.getTruthy .entry_date with
  | some c => parse_date_flexible fb (getCell cols r c)
  | none => none

/-- nicegui status filter: `.str.strip().str.title() == st`, run when the
column is mapped and the selection is truthy and not `"All"`. -/
def mFilterStatus (crit : Criteria) (m : Mapping) (cols : List String) (rows : List (List String)) : List (List String) :=
  if crit.status_select ≠ "" ∧ crit.status_select ≠ "All" then
    match m.getTruthy .case_status with
    | some c => rows.filter (fun r => titleCase (pyStrip (getCell cols r c)) = crit.status_select)
    | none => rows
  else rows

/-- nicegui court filter. -/
def mFilterCourt (crit : Criteria) (m : Mapping) (cols : List String) (rows : List (List String)) : List (List String) :=
  if crit.court_select ≠ "" ∧ crit.court_select ≠ "All" then
    match m.getTruthy .court_system with
    | some c => rows.filter (fun r => trimLower (getCell cols r c) = trimLower crit.court_select)
    | none => rows
  else rows

/-- nicegui case-type filter. -/
def mFilterType (crit : Criteria) (m : Mapping) (cols : List String) (rows : List (List String)) : List (List String) :=
  if crit.type_select ≠ "" ∧ crit.type_select ≠ "All" then
    match m.getTruthy .case_type with
    | some c => rows.filter (fun r => trimLower (getCell cols r c) = trimLower crit.type_select)
    | none => rows
  else rows

/-- nicegui amount filter: like the streamlit one, no mapping guard. -/
def mFilterAmount (crit : Criteria) (m : Mapping) (cols : List String) (rows : List (List String)) : List (List String) :=
  if crit.amount_select ≠ "" ∧ crit.amount_select ≠ "All" then
    rows.filter (fun r => Dec.ble ⟨(threshold crit.amount_select : Int), 0⟩ (mAmountNum m cols r))
  else rows

/-- nicegui date filter: each set bound filters unconditionally — there is
no `notnull().any()` guard here. -/
def mFilterDate (fb : String → Option Date) (crit : Criteria) (m : Mapping) (cols : List String) (rows : List (List String)) : List (List String) :=
  dateEnd (mDParse fb m cols) crit.end_date (dateStart (mDParse fb m cols) crit.start_date rows)

/-- The raw rows surviving all five nicegui predicates, in order. -/
def modernSurvivors (fb : String → Option Date) (crit : Criteria) (m : Mapping) (cols : List String) (rows : List (List String)) : List (List String) :=
  mFilterDate fb crit m cols
    (mFilterAmount crit m cols
      (mFilterType crit m cols
        (mFilterCourt crit m cols
          (mFilterStatus crit m cols rows))))

/-- nicegui entry-date display value: the parsed date rendered as ISO, the
empty string when the cell does not parse. -/
def mFmtDateCell (fb : String → Option Date) (v : String) : String :=
  match parse_date_flexible fb v with
  | some d => isoDate d
  | none => ""

/-- The apostrophe character (HTML attribute quote in the nicegui link). -/
def aposStr : String := String.singleton (Char.ofNat 39)

/-- nicegui link display value: an HTML anchor, empty when blank. -/
def mFmtLinkCell (v : String) : String :=
  if pyStrip v = "" then ""
  else
    "<a href=" ++ aposStr ++ v ++ aposStr ++ " target=" ++ aposStr ++ "_blank" ++ aposStr ++
      " class=" ++ aposStr ++ "text-indigo-600 underline" ++ aposStr ++ ">View Case</a>"

/-- One field of the nicegui display dict: skipped when the key is unmapped
or its column falsy, otherwise the cell value with the per-key format. -/
def modernFieldVal (fb : String → Option Date) (m : Mapping) (cols : List String) (row : List String) (k : FieldKey) : Option String :=
  match m.getTruthy k with
  | none => none
  | some c =>
    let v := getCell cols row c
    some (match k with
      | .judgment_amount => formatCurrency (parse_amount v)
      | .entry_date => mFmtDateCell fb v
      | .case_link => mFmtLinkCell v
      | _ => v)

/-- The nicegui display dict before the case-number fallback. -/
def modernRowOf (fb : String → Option Date) (m : Mapping) (cols : List String) (row : List String) : DRow where
  case_number := modernFieldVal fb m cols row .case_number
  case_status := modernFieldVal fb m cols row .case_status
  judgment_amount := modernFieldVal fb m cols row .judgment_amount
  entry_date := modernFieldVal fb m cols row .entry_date
  court_system := modernFieldVal fb m cols row .court_system
  case_type := modernFieldVal fb m cols row .case_type
  case_link := modernFieldVal fb m cols row .case_link
  address := modernFieldVal fb m cols row .address

/-- The nicegui case-number fallback: when `"case_number"` is absent from
the dict or blank, it is set to the first cell of the raw row truncated to
30 characters (`str(row.tolist()[0])[:30]`). -/
def modernFinalize (row : List String) (r : DRow) : DRow :=
  if r.case_number.getD "" = "" then
    { r with case_number := some (String.mk ((row.getD 0 "").toList.take 30)) }
  else r

/-- Function `apply_filters_handler` of `modern_case_viewer.py`: filter, then build
one display dict per surviving row. -/
def apply_filters_handler (fb : String → Option Date) (crit : Criteria) (m : Mapping) (cols : List String) (rows : List (List String)) : List DRow :=
  (modernSurvivors fb crit m cols rows).map
    (fun r => modernFinalize r (modernRowOf fb m cols r))

/-- The whole nicegui pipeline on a loaded table (no load-time status
normalization in this variant). -/
def modernPass (fb : String → Option Date) (crit : Criteria) (t : Table) : List DRow :=
  apply_filters_handler fb crit (map_columns t.headers) (normCols t) t.rows

/-! ## Concrete instances used by the claims -/

/-- A fallback on which the pandas best-effort parse fails (as it does on
every string exercised below, e.g. `pd.to_datetime("garbage", errors =
"coerce")` is `NaT`). -/
def fbNone : String → Option Date := fun _ => none

/-- The end-to-end scenario table of the spec (§8). -/
def tblC5 : Table where
  headers := ["Case Number", "Status", "Judgment Amount", "Entry Date"]
  rows := [["1A", "Entered", "$50,000", "01/01/2020"],
           ["1B", "Renewed", "$5,000", "01/01/2020"]]

/-- The end-to-end scenario criteria: status `"Entered"`, amount
`">= $10,000"`, everything else open, covering date bounds. -/
def critC5 : Criteria where
  status_select := "Entered"
  court_select := "All"
  type_select := "All"
  amount_select := ">= $10,000"
  start_date := some ⟨2014, 1, 1⟩
  end_date := some ⟨2025, 12, 31⟩

/-- A table with no judgment-amount column. -/
def tblC1 : Table where
  headers := ["Case Number"]
  rows := [["1A"]]

/-- Open criteria except for an amount threshold. -/
def critC1 : Criteria where
  status_select := "All"
  court_select := "All"
  type_select := "All"
  amount_select := ">= $10,000"
  start_date := none
  end_date := none

/-- Criteria `critC1` with the amount filter disabled. -/
def critC1all : Criteria := { critC1 with amount_select := "All" }

/-- A table whose only (mapped) entry-date cell does not parse. -/
def tblC2 : Table where
  headers := ["Entry Date"]
  rows := [["garbage"]]

/-- Open criteria with both date bounds set. -/
def critC2 : Criteria where
  status_select := "All"
  court_select := "All"
  type_select := "All"
  amount_select := "All"
  start_date := some ⟨2014, 1, 1⟩
  end_date := some ⟨2030, 12, 31⟩

/-- A table with one mapped entry-date column and a parseable date. -/
def tblC3 : Table where
  headers := ["Entry Date"]
  rows := [["01/01/2020"]]

/-- Fully open criteria: no filter active. -/
def critAll : Criteria where
  status_select := "All"
  court_select := "All"
  type_select := "All"
  amount_select := "All"
  start_date := none
  end_date := none

/-- A table with a status column but no case-number column. -/
def tblC4 : Table where
  headers := ["Status"]
  rows := [["Entered"]]

/-- The mapping of a lone `"Judgment Amount"` header. -/
def mW7 : Mapping := map_columns ["Judgment Amount"]

/-- Criteria selecting the `">= $25,000"` tier. -/
def critW7 : Criteria where
  status_select := "All"
  court_select := "All"
  type_select := "All"
  amount_select := ">= $25,000"
  start_date := none
  end_date := none

/-! ## Helper lemmas -/

theorem mapStep_get (m : Mapping) (c : String) (k : FieldKey) :
    (mapStep m c).get k = if keyRule k c then some c else m.get k := by
  cases k <;> rfl

theorem foldl_mapStep_get (l : List String) (m0 : Mapping) (k : FieldKey) :
    ((l.foldl mapStep m0).get k) =
      match l.reverse.find? (keyRule k) with
      | some c => some c
      | none => m0.get k := by
  induction l generalizing m0 with
  | nil => rfl
  | cons c t ih =>
    rw [List.foldl_cons, ih, List.reverse_cons, List.find?_append]
    cases h : t.reverse.find? (keyRule k) with
    | some x => simp [Option.or]
    | none =>
      by_cases hc : keyRule k c = true
      · simp [Option.or, List.find?, hc, mapStep_get]
      · simp [Option.or, List.find?, hc, mapStep_get]

theorem empty_mapping_get (k : FieldKey) : (({} : Mapping)).get k = none := by
  cases k <;> rfl

theorem map_columns_get (headers : List String) (k : FieldKey) :
    (map_columns headers).get k = (headers.map normalizeCol).reverse.find? (keyRule k) := by
  unfold map_columns
  rw [foldl_mapStep_get]
  cases h : (headers.map normalizeCol).reverse.find? (keyRule k) with
  | some x => rfl
  | none => exact empty_mapping_get k

theorem digitVal_le (c : Char) (h : isDigitC c = true) : digitVal c ≤ 9 := by
  unfold isDigitC at h
  rw [decide_eq_true_iff] at h
  unfold digitVal
  omega

theorem Dec.toQ_nat (n : Nat) : (Dec.mk (n : Int) 0).toQ = (n : ℚ) := by
  unfold Dec.toQ
  push_cast
  simp

theorem year2_range {l : List Char} {y : Nat} {rest : List Char}
    (h : year2 l = some (y, rest)) : 1969 ≤ y ∧ y ≤ 2068 := by
  match l with
  | [] => simp [year2] at h
  | [a] => simp [year2] at h
  | a :: b :: t =>
    rw [year2] at h
    by_cases hd : isDigitC a = true ∧ isDigitC b = true
    · rw [if_pos hd] at h
      have ha := digitVal_le a hd.1
      have hb := digitVal_le b hd.2
      injection h with h1
      have h2 : (if 10 * digitVal a + digitVal b ≤ 68 then
          2000 + (10 * digitVal a + digitVal b) else
          1900 + (10 * digitVal a + digitVal b)) = y := congrArg Prod.fst h1
      by_cases hle : 10 * digitVal a + digitVal b ≤ 68
      · rw [if_pos hle] at h2; omega
      · rw [if_neg hle] at h2; omega
    · rw [if_neg hd] at h; cases h

theorem parseMDY2pos_year {sep : Char} {cs : List Char} {y m d : Nat}
    (h : parseMDY2pos sep cs = some (y, m, d)) : 1969 ≤ y ∧ y ≤ 2068 := by
  unfold parseMDY2pos at h
  obtain ⟨mc, hmc, h2⟩ := List.exists_of_findSome?_eq_some h
  cases hsep : sepOk sep mc.2 with
  | none => rw [hsep] at h2; cases h2
  | some r1 =>
    rw [hsep] at h2
    simp only [Option.some_bind] at h2
    obtain ⟨dc, hdc, h3⟩ := List.exists_of_findSome?_eq_some h2
    cases hsep2 : sepOk sep dc.2 with
    | none => rw [hsep2] at h3; cases h3
    | some r2 =>
      rw [hsep2] at h3
      simp only [Option.some_bind] at h3
      cases hy : year2 r2 with
      | none => rw [hy] at h3; cases h3
      | some p =>
        rw [hy] at h3
        simp only [Option.some_bind] at h3
        by_cases hp : p.2 = []
        · rw [if_pos hp] at h3
          injection h3 with h4
          have h5 : p.1 = y := congrArg Prod.fst h4
          obtain ⟨yy, rest⟩ := p
          exact h5 ▸ year2_range hy
        · rw [if_neg hp] at h3; cases h3

theorem runFmt_MDY2_year {cs : List Char} {dt : Date}
    (h : runFmt (parseMDY2pos '/') cs = some dt) :
    1969 ≤ dt.year ∧ dt.year ≤ 2068 := by
  unfold runFmt at h
  cases hp : parseMDY2pos '/' cs with
  | none => rw [hp] at h; cases h
  | some t =>
    obtain ⟨y, m, d⟩ := t
    rw [hp] at h
    simp only [Option.some_bind] at h
    unfold mkDate? at h
    split at h
    · injection h with h1
      subst h1
      exact parseMDY2pos_year hp
    · cases h

theorem sFilterStatus_unmapped {crit : Criteria} {m : Mapping} {cols : List String}
    {rows : List (List String)} (h : m.getCol .case_status cols = none) :
    sFilterStatus crit m cols rows = rows := by
  unfold sFilterStatus
  split
  · rw [h]
  · rfl

theorem sFilterCourt_unmapped {crit : Criteria} {m : Mapping} {cols : List String}
    {rows : List (List String)} (h : m.getCol .court_system cols = none) :
    sFilterCourt crit m cols rows = rows := by
  unfold sFilterCourt
  split
  · rw [h]
  · rfl

theorem sFilterType_unmapped {crit : Criteria} {m : Mapping} {cols : List String}
    {rows : List (List String)} (h : m.getCol .case_type cols = none) :
    sFilterType crit m cols rows = rows := by
  unfold sFilterType
  split
  · rw [h]
  · rfl

theorem sDParse_unmapped {fb : String → Option Date} {m : Mapping} {cols : List String}
    (h : m.getCol .entry_date cols = none) (r : List String) :
    sDParse fb m cols r = none := by
  unfold sDParse
  rw [h]

theorem sFilterDate_unmapped {fb : String → Option Date} {crit : Criteria} {m : Mapping}
    {cols : List String} {rows : List (List String)} (h : m.getCol .entry_date cols = none) :
    sFilterDate fb crit m cols rows = rows := by
  unfold sFilterDate
  have hany : (rows.any fun r => (sDParse fb m cols r).isSome) = false := by
    rw [List.any_eq_false]
    intro r hr
    rw [sDParse_unmapped h]
    simp
  rw [hany]
  simp

theorem sAmountNum_unmapped {m : Mapping} {cols : List String}
    (h : m.getCol .judgment_amount cols = none) (r : List String) :
    sAmountNum m cols r = ⟨0, 0⟩ := by
  unfold sAmountNum
  rw [h]

theorem threshold_pos_ne_empty {sel : String} (hpos : 0 < threshold sel) : sel ≠ "" := by
  intro he
  rw [he] at hpos
  exact absurd hpos (by decide)

theorem sFilterAmount_unmapped_empty {crit : Criteria} {m : Mapping} {cols : List String}
    {rows : List (List String)} (h : m.getCol .judgment_amount cols = none)
    (hsel : crit.amount_select ≠ "All") (hpos : 0 < threshold crit.amount_select) :
    sFilterAmount crit m cols rows = [] := by
  unfold sFilterAmount
  rw [if_pos hsel, List.filter_eq_nil_iff]
  intro r hr
  rw [sAmountNum_unmapped h]
  unfold Dec.ble
  simp only [pow_zero, mul_one, decide_eq_true_eq]
  intro hle
  omega

theorem dateStart_nil {dp : List String → Option Date} {bound : Option Date} :
    dateStart dp bound [] = [] := by
  unfold dateStart
  cases bound <;> rfl

theorem dateEnd_nil {dp : List String → Option Date} {bound : Option Date} :
    dateEnd dp bound [] = [] := by
  unfold dateEnd
  cases bound <;> rfl

theorem sFilterDate_nil {fb : String → Option Date} {crit : Criteria} {m : Mapping}
    {cols : List String} : sFilterDate fb crit m cols [] = [] := by
  unfold sFilterDate
  simp [dateStart_nil, dateEnd_nil]

theorem dateStart_subset {dp : List String → Option Date} {bound : Option Date}
    {rows : List (List String)} {r : List String} (h : r ∈ dateStart dp bound rows) :
    r ∈ rows := by
  unfold dateStart at h
  cases bound with
  | none => exact h
  | some sd => exact (List.mem_filter.mp h).1

theorem dateEnd_subset {dp : List String → Option Date} {bound : Option Date}
    {rows : List (List String)} {r : List String} (h : r ∈ dateEnd dp bound rows) :
    r ∈ rows := by
  unfold dateEnd at h
  cases bound with
  | none => exact h
  | some ed => exact (List.mem_filter.mp h).1

theorem mem_dateStart_isSome {dp : List String → Option Date} {sd : Date}
    {rows : List (List String)} {r : List String} (h : r ∈ dateStart dp (some sd) rows) :
    (dp r).isSome = true := by
  unfold dateStart at h
  have h2 := (List.mem_filter.mp h).2
  cases hdp : dp r with
  | none => rw [hdp] at h2; cases h2
  | some x => rfl

theorem mem_dateEnd_isSome {dp : List String → Option Date} {ed : Date}
    {rows : List (List String)} {r : List String} (h : r ∈ dateEnd dp (some ed) rows) :
    (dp r).isSome = true := by
  unfold dateEnd at h
  have h2 := (List.mem_filter.mp h).2
  cases hdp : dp r with
  | none => rw [hdp] at h2; cases h2
  | some x => rfl

theorem dateStart_allnone {dp : List String → Option Date} (hdp : ∀ r, dp r = none)
    (sd : Date) (rows : List (List String)) : dateStart dp (some sd) rows = [] := by
  unfold dateStart
  rw [List.filter_eq_nil_iff]
  intro r hr
  rw [hdp r]
  simp

theorem mDParse_unmapped {fb : String → Option Date} {m : Mapping} {cols : List String}
    (h : m.getTruthy .entry_date = none) (r : List String) :
    mDParse fb m cols r = none := by
  unfold mDParse
  rw [h]

theorem mAmountNum_unmapped {m : Mapping} {cols : List String}
    (h : m.getTruthy .judgment_amount = none) (r : List String) :
    mAmountNum m cols r = ⟨0, 0⟩ := by
  unfold mAmountNum
  rw [h]

theorem mFilterAmount_unmapped_empty {crit : Criteria} {m : Mapping} {cols : List String}
    {rows : List (List String)} (h : m.getTruthy .judgment_amount = none)
    (hsel : crit.amount_select ≠ "All") (hpos : 0 < threshold crit.amount_select) :
    mFilterAmount crit m cols rows = [] := by
  unfold mFilterAmount
  rw [if_pos ⟨threshold_pos_ne_empty hpos, hsel⟩, List.filter_eq_nil_iff]
  intro r hr
  rw [mAmountNum_unmapped h]
  unfold Dec.ble
  simp only [pow_zero, mul_one, decide_eq_true_eq]
  intro hle
  omega

theorem mFilterDate_nil {fb : String → Option Date} {crit : Criteria} {m : Mapping}
    {cols : List String} : mFilterDate fb crit m cols [] = [] := by
  unfold mFilterDate
  rw [dateStart_nil, dateEnd_nil]

theorem modernRowOf_get (fb : String → Option Date) (m : Mapping) (cols : List String)
    (row : List String) (k : FieldKey) :
    (modernRowOf fb m cols row).get k = modernFieldVal fb m cols row k := by
  cases k <;> rfl

theorem modernFinalize_get_ne (row : List String) (r : DRow) (k : FieldKey)
    (hk : k ≠ .case_number) : (modernFinalize row r).get k = r.get k := by
  unfold modernFinalize
  split
  · cases k <;> first | exact absurd rfl hk | rfl
  · rfl

theorem modernFinalize_cn_isSome (row : List String) (r : DRow) :
    ((modernFinalize row r).get .case_number).isSome = true := by
  unfold modernFinalize
  split
  · rfl
  · next hne =>
    show r.case_number.isSome = true
    cases hc : r.case_number with
    | none => rw [hc] at hne; exact absurd rfl hne
    | some v => rfl

/-! ## The claims -/

/-- C6: for every header list, the mapping computed by `load_and_map`
assigns each semantic key the (normalized form of the) last header in scan
order whose normalized form satisfies that key's substring rule, and a key
matched by no header is simply absent from the mapping, with no error
raised. -/
theorem claim_C6 (headers : List String) (k : FieldKey) :
    (map_columns headers).get k = (headers.map normalizeCol).reverse.find? (keyRule k)
    ∧ ((map_columns headers).get k = none ↔
        ∀ h ∈ headers, keyRule k (normalizeCol h) = false) := by
  refine ⟨map_columns_get headers k, ?_⟩
  rw [map_columns_get, List.find?_eq_none]
  constructor
  · intro hf h hh
    have hm : normalizeCol h ∈ (headers.map normalizeCol).reverse := by
      rw [List.mem_reverse, List.mem_map]
      exact ⟨h, hh, rfl⟩
    have := hf (normalizeCol h) hm
    simpa using this
  · intro hall x hx
    rw [List.mem_reverse, List.mem_map] at hx
    obtain ⟨h, hh, rfl⟩ := hx
    simp [hall h hh]

/-- C8: `parse_amount` strips every character that is not a digit, `'.'`
or `'-'` and reads the remainder as a number, with `0.0` on a blank or
invalid remainder; in particular `parse_amount("$1,234.56") = 1234.56`,
`parse_amount("") = 0.0` and `parse_amount("abc") = 0.0`. -/
theorem claim_C8 :
    (parse_amount "$1,234.56").toQ = (1234.56 : ℚ)
    ∧ (parse_amount "").toQ = 0
    ∧ (parse_amount "abc").toQ = 0
    ∧ (∀ s : String, parse_amount s = (pyFloat? (keepNumChars s)).getD ⟨0, 0⟩)
    ∧ (∀ s : String, keepNumChars s = [] → parse_amount s = ⟨0, 0⟩) := by
  refine ⟨?_, ?_, ?_, fun s => rfl, fun s h => ?_⟩
  · have e : parse_amount "$1,234.56" = ⟨123456, 2⟩ := by decide
    rw [e]; unfold Dec.toQ; norm_num
  · have e : parse_amount "" = ⟨0, 0⟩ := by decide
    rw [e]; unfold Dec.toQ; norm_num
  · have e : parse_amount "abc" = ⟨0, 0⟩ := by decide
    rw [e]; unfold Dec.toQ; norm_num
  · unfold parse_amount
    rw [h]
    rfl

/-- C8 witness: the stripped remainder of `"xyz"` is blank, so the amount
coerces to `0.0`. -/
theorem claim_C8_witness : parse_amount "xyz" = ⟨0, 0⟩ :=
  claim_C8.2.2.2.2 "xyz" (by decide)

/-- Unfolding equation of `parse_date_flexible`. -/
theorem pdf_eq (fb : String → Option Date) (v : String) :
    parse_date_flexible fb v =
      if pyStrip v = "" then none
      else
        match tryFormats (pyStrip v).toList with
        | some d => some d
        | none => fb (pyStrip v) := rfl

/-- C9: `parse_date_flexible` tries `%m/%d/%Y`, `%m/%d/%y`, `%Y-%m-%d`,
`%Y/%m/%d`, `%m-%d-%Y` in that order, returns the first success, falls
back to the generic pandas parse when none match, and yields `None` when
that also fails; in particular `"03/14/2021"` and `"2021-03-14"` both give
2021-03-14 and `"not a date"` gives `None` (pandas coerces it to `NaT`). -/
theorem claim_C9 :
    (∀ fb, parse_date_flexible fb "03/14/2021" = some ⟨2021, 3, 14⟩)
    ∧ (∀ fb, parse_date_flexible fb "2021-03-14" = some ⟨2021, 3, 14⟩)
    ∧ (∀ fb, fb "not a date" = none → parse_date_flexible fb "not a date" = none)
    ∧ (∀ fb v d, tryFormats (pyStrip v).toList = some d → parse_date_flexible fb v = some d)
    ∧ (∀ fb v, pyStrip v ≠ "" → tryFormats (pyStrip v).toList = none →
        parse_date_flexible fb v = fb (pyStrip v)) := by
  refine ⟨fun fb => rfl, fun fb => rfl, ?_, ?_, ?_⟩
  · intro fb h
    rw [pdf_eq, if_neg (by decide)]
    have h2 : tryFormats (pyStrip "not a date").toList = none := by decide
    rw [h2]
    have h1 : pyStrip "not a date" = "not a date" := by decide
    rw [h1]
    exact h
  · intro fb v d h
    have hne : pyStrip v ≠ "" := by
      intro he
      rw [he] at h
      have : tryFormats ("" : String).toList = none := by decide
      rw [this] at h
      cases h
    rw [pdf_eq, if_neg hne, h]
  · intro fb v hne h
    rw [pdf_eq, if_neg hne, h]

/-- C9 witness: concrete uses of the conditional clauses — the fallback is
consulted exactly when every format fails, and the fifth format parses
`"12-31-1999"`. -/
theorem claim_C9_witness :
    parse_date_flexible (fun _ => none) "not a date" = none
    ∧ parse_date_flexible (fun _ => none) "12-31-1999" = some ⟨1999, 12, 31⟩
    ∧ parse_date_flexible (fun _ => some ⟨1970, 1, 1⟩) "not a date" = some ⟨1970, 1, 1⟩ := by
  refine ⟨claim_C9.2.2.1 (fun _ => none) rfl, ?_, ?_⟩
  · exact claim_C9.2.2.2.1 (fun _ => none) "12-31-1999" ⟨1999, 12, 31⟩ (by decide)
  · have h := claim_C9.2.2.2.2 (fun _ => some ⟨1970, 1, 1⟩) "not a date" (by decide) (by decide)
    rw [h]

/-- C10: the `%m/%d/%y` format resolves two-digit years through the
`strptime` century pivot: `00`–`68` become 2000–2068 and `69`–`99` become
1969–1999, so every date this format produces has a year in 1969–2068 and
a pre-1969 date can never result from it; e.g. `"01/02/20"` parses to
2020-01-02 and `"01/02/95"` to 1995-01-02. -/
theorem claim_C10 :
    (∀ cs dt, runFmt (parseMDY2pos '/') cs = some dt → 1969 ≤ dt.year ∧ dt.year ≤ 2068)
    ∧ (∀ fb, parse_date_flexible fb "01/02/20" = some ⟨2020, 1, 2⟩)
    ∧ (∀ fb, parse_date_flexible fb "01/02/95" = some ⟨1995, 1, 2⟩) :=
  ⟨fun _ _ h => runFmt_MDY2_year h, fun _fb => rfl, fun _fb => rfl⟩

/-- C10 witness: the bound applied at the concrete parse of `"01/02/95"`. -/
theorem claim_C10_witness :
    1969 ≤ (Date.mk 1995 1 2).year ∧ (Date.mk 1995 1 2).year ≤ 2068 :=
  claim_C10.1 ("01/02/95".toList) ⟨1995, 1, 2⟩ (by decide)

/-- C7: a row passes the amount predicate iff the selected option is
`"All"` (the comparison is skipped entirely, not run with threshold 0) or
the parsed amount of its cell is at least the selected threshold, with an
inclusive boundary: at threshold 25000 the amount `"$24,999.99"` fails and
`"$25,000.00"` passes. -/
theorem claim_C7 (crit : Criteria) (m : Mapping) (cols : List String)
    (rows : List (List String)) (r : List String) (c : String)
    (hmap : m.getCol .judgment_amount cols = some c) :
    (r ∈ sFilterAmount crit m cols rows ↔
      r ∈ rows ∧ (crit.amount_select = "All" ∨
        ((threshold crit.amount_select : ℚ) ≤ (parse_amount (getCell cols r c)).toQ)))
    ∧ threshold ">= $25,000" = 25000
    ∧ ¬ ((25000 : ℚ) ≤ (parse_amount "$24,999.99").toQ)
    ∧ ((25000 : ℚ) ≤ (parse_amount "$25,000.00").toQ) := by
  have hamt : sAmountNum m cols r = parse_amount (getCell cols r c) := by
    unfold sAmountNum
    rw [hmap]
  refine ⟨?_, by decide, ?_, ?_⟩
  · unfold sFilterAmount
    by_cases hall : crit.amount_select = "All"
    · rw [if_neg (by simpa using hall)]
      simp [hall]
    · rw [if_pos hall, List.mem_filter]
      constructor
      · rintro ⟨hr, hp⟩
        refine ⟨hr, Or.inr ?_⟩
        have h2 := (Dec.ble_iff _ _).mp hp
        rw [Dec.toQ_nat, hamt] at h2
        exact h2
      · rintro ⟨hr, hor⟩
        cases hor with
        | inl h => exact absurd h hall
        | inr h =>
          refine ⟨hr, (Dec.ble_iff _ _).mpr ?_⟩
          rw [Dec.toQ_nat, hamt]
          exact h
  · have e : parse_amount "$24,999.99" = ⟨2499999, 2⟩ := by decide
    rw [e]; unfold Dec.toQ; norm_num
  · have e : parse_amount "$25,000.00" = ⟨2500000, 2⟩ := by decide
    rw [e]; unfold Dec.toQ; norm_num

/-- C7 witness: at the `">= $25,000"` tier on a mapped amount column,
the boundary row `"$25,000.00"` passes and `"$24,999.99"` is excluded. -/
theorem claim_C7_witness :
    ["$25,000.00"] ∈ sFilterAmount critW7 mW7 ["judgment_amount"] [["$25,000.00"], ["$24,999.99"]]
    ∧ ["$24,999.99"] ∉ sFilterAmount critW7 mW7 ["judgment_amount"] [["$25,000.00"], ["$24,999.99"]] := by
  constructor
  · apply (claim_C7 critW7 mW7 ["judgment_amount"] [["$25,000.00"], ["$24,999.99"]]
      ["$25,000.00"] "judgment_amount" (by decide)).1.mpr
    refine ⟨by decide, Or.inr ?_⟩
    have e : parse_amount (getCell ["judgment_amount"] ["$25,000.00"] "judgment_amount")
        = ⟨2500000, 2⟩ := by decide
    have ht : threshold critW7.amount_select = 25000 := by decide
    rw [e, ht]
    unfold Dec.toQ
    norm_num
  · intro hmem
    have h2 := (claim_C7 critW7 mW7 ["judgment_amount"] [["$25,000.00"], ["$24,999.99"]]
      ["$24,999.99"] "judgment_amount" (by decide)).1.mp hmem
    cases h2.2 with
    | inl h => exact absurd h (by decide)
    | inr h =>
      have e : parse_amount (getCell ["judgment_amount"] ["$24,999.99"] "judgment_amount")
          = ⟨2499999, 2⟩ := by decide
      have ht : threshold critW7.amount_select = 25000 := by decide
      rw [e, ht] at h
      unfold Dec.toQ at h
      norm_num at h

/-- C2 counterexample: on a table whose mapped entry-date column holds only
the unparseable cell `"garbage"`, with both bounds set, the streamlit pass
keeps the row — the `notnull().any()` guard sees no parseable date and
skips the whole date filter, so a row whose date fails to parse is NOT
excluded. -/
theorem claim_C2_counterexample :
    (map_columns tblC2.headers).getCol .entry_date (normCols tblC2) = some "entry_date"
    ∧ parse_date_flexible fbNone "garbage" = none
    ∧ critC2.start_date.isSome = true
    ∧ critC2.end_date.isSome = true
    ∧ (streamlitPass fbNone critC2 tblC2).2 = [["garbage"]] := by decide

/-- C2 amended: in the nicegui pass a set bound always excludes every row
whose date fails to parse; in the streamlit pass this holds only when at
least one row entering the date stage has a parseable date — when no
surviving row's date parses, the `notnull().any()` guard skips the date
filter entirely and unparseable rows survive. -/
theorem claim_C2_amended :
    (∀ fb crit m cols rows r, (crit.start_date.isSome = true ∨ crit.end_date.isSome = true) →
       r ∈ mFilterDate fb crit m cols rows → (mDParse fb m cols r).isSome = true)
    ∧ (∀ fb crit m cols rows r,
       (rows.any fun x => (sDParse fb m cols x).isSome) = true →
       (crit.start_date.isSome = true ∨ crit.end_date.isSome = true) →
       r ∈ sFilterDate fb crit m cols rows → (sDParse fb m cols r).isSome = true) := by
  constructor
  · intro fb crit m cols rows r hb hr
    unfold mFilterDate at hr
    cases hb with
    | inr he =>
      obtain ⟨ed, hed⟩ := Option.isSome_iff_exists.mp he
      rw [hed] at hr
      exact mem_dateEnd_isSome hr
    | inl hs =>
      obtain ⟨sd, hsd⟩ := Option.isSome_iff_exists.mp hs
      have hr2 : r ∈ dateStart (mDParse fb m cols) crit.start_date rows := dateEnd_subset hr
      rw [hsd] at hr2
      exact mem_dateStart_isSome hr2
  · intro fb crit m cols rows r hany hb hr
    unfold sFilterDate at hr
    rw [if_pos hany] at hr
    cases hb with
    | inr he =>
      obtain ⟨ed, hed⟩ := Option.isSome_iff_exists.mp he
      rw [hed] at hr
      exact mem_dateEnd_isSome hr
    | inl hs =>
      obtain ⟨sd, hsd⟩ := Option.isSome_iff_exists.mp hs
      have hr2 : r ∈ dateStart (sDParse fb m cols) crit.start_date rows := dateEnd_subset hr
      rw [hsd] at hr2
      exact mem_dateStart_isSome hr2

/-- C2 witness: a surviving row of the nicegui date stage under a set start
bound has a parseable date. -/
theorem claim_C2_witness :
    (mDParse fbNone (map_columns tblC2.headers) (normCols tblC2) ["01/01/2020"]).isSome = true := by
  apply claim_C2_amended.1 fbNone critC2 (map_columns tblC2.headers) (normCols tblC2)
    [["01/01/2020"]] ["01/01/2020"]
  · exact Or.inl (by decide)
  · decide

/-- C1 counterexample: on a table with no judgment-amount column and the
`">= $10,000"` tier selected, the filter pass returns NO rows — the amount
predicate compares the synthetic `0.0` against the threshold and excludes
every row — while the same pass with the amount filter at `"All"` returns
the row; so the amount filter is not skipped when its field is unmapped. -/
theorem claim_C1_counterexample :
    (map_columns tblC1.headers).getCol .judgment_amount (normCols tblC1) = none
    ∧ (streamlitPass fbNone critC1 tblC1).2 = []
    ∧ (streamlitPass fbNone critC1all tblC1).2 = [["1A"]]
    ∧ apply_filters_handler fbNone critC1 (map_columns tblC1.headers) (normCols tblC1) tblC1.rows = [] := by
  refine ⟨by decide, by decide, by decide, by decide⟩

/-- C1 amended: an unmapped field is omitted from the Display Rows and the
status, court and case-type filters referencing an unmapped field are
skipped (the pass is independent of their selections); but the amount and
date predicates are not skipped: with no judgment-amount column mapped and
a positive threshold selected, every row is excluded in both variants
(`_amount_num` is the scalar `0.0`); with no entry-date column mapped, the
streamlit variant skips the date filter while a set start bound in the
nicegui variant excludes every row (`pd.NaT` fails both comparisons). -/
theorem claim_C1_amended (fb : String → Option Date) (crit : Criteria) (t : Table) :
    ((map_columns t.headers).getCol .case_status (normCols t) = none →
       streamlitPass fb crit t = streamlitPass fb { crit with status_select := "All" } t)
    ∧ ((map_columns t.headers).getCol .court_system (normCols t) = none →
       streamlitPass fb crit t = streamlitPass fb { crit with court_select := "All" } t)
    ∧ ((map_columns t.headers).getCol .case_type (normCols t) = none →
       streamlitPass fb crit t = streamlitPass fb { crit with type_select := "All" } t)
    ∧ ((map_columns t.headers).getCol .entry_date (normCols t) = none →
       streamlitPass fb crit t = streamlitPass fb { crit with start_date := none, end_date := none } t)
    ∧ ((map_columns t.headers).getCol .judgment_amount (normCols t) = none →
       crit.amount_select ≠ "All" → 0 < threshold crit.amount_select →
       (streamlitPass fb crit t).2 = [])
    ∧ ((map_columns t.headers).getTruthy .judgment_amount = none →
       crit.amount_select ≠ "All" → 0 < threshold crit.amount_select →
       apply_filters_handler fb crit (map_columns t.headers) (normCols t) t.rows = [])
    ∧ ((map_columns t.headers).getTruthy .entry_date = none → crit.start_date.isSome = true →
       apply_filters_handler fb crit (map_columns t.headers) (normCols t) t.rows = [])
    ∧ (∀ k : FieldKey, k ≠ .case_number → (map_columns t.headers).getTruthy k = none →
       ∀ r ∈ apply_filters_handler fb crit (map_columns t.headers) (normCols t) t.rows,
         r.get k = none) := by
  refine ⟨?_, ?_, ?_, ?_, ?_, ?_, ?_, ?_⟩
  · intro h
    unfold streamlitPass apply_filters streamlitSurvivors
    rw [sFilterStatus_unmapped h, sFilterStatus_unmapped h]
    rfl
  · intro h
    unfold streamlitPass apply_filters streamlitSurvivors
    rw [sFilterCourt_unmapped h, sFilterCourt_unmapped h]
    rfl
  · intro h
    unfold streamlitPass apply_filters streamlitSurvivors
    rw [sFilterType_unmapped h, sFilterType_unmapped h]
    rfl
  · intro h
    unfold streamlitPass apply_filters streamlitSurvivors
    rw [sFilterDate_unmapped h, sFilterDate_unmapped h]
    rfl
  · intro h hsel hpos
    unfold streamlitPass apply_filters streamlitSurvivors
    rw [sFilterAmount_unmapped_empty h hsel hpos, sFilterDate_nil]
    rfl
  · intro h hsel hpos
    unfold apply_filters_handler modernSurvivors
    rw [mFilterAmount_unmapped_empty h hsel hpos, mFilterDate_nil]
    rfl
  · intro h hs
    obtain ⟨sd, hsd⟩ := Option.isSome_iff_exists.mp hs
    unfold apply_filters_handler modernSurvivors mFilterDate
    rw [hsd, dateStart_allnone (mDParse_unmapped h) sd, dateEnd_nil]
    rfl
  · intro k hk hum r hr
    unfold apply_filters_handler at hr
    obtain ⟨row, hrow, hre⟩ := List.mem_map.mp hr
    rw [← hre, modernFinalize_get_ne _ _ _ hk, modernRowOf_get]
    unfold modernFieldVal
    rw [hum]

/-- C1 witness: the amount-exclusion and date-exclusion clauses applied to
a concrete table with no amount column. -/
theorem claim_C1_witness :
    (streamlitPass fbNone critC1 tblC1).2 = []
    ∧ apply_filters_handler fbNone critC1 (map_columns tblC1.headers) (normCols tblC1) tblC1.rows = []
    ∧ apply_filters_handler fbNone critC2 (map_columns tblC1.headers) (normCols tblC1) tblC1.rows = [] := by
  refine ⟨?_, ?_, ?_⟩
  · exact (claim_C1_amended fbNone critC1 tblC1).2.2.2.2.1 (by decide) (by decide) (by decide)
  · exact (claim_C1_amended fbNone critC1 tblC1).2.2.2.2.2.1 (by decide) (by decide) (by decide)
  · exact (claim_C1_amended fbNone critC2 tblC1).2.2.2.2.2.2.1 (by decide) (by decide)

/-- C3 counterexample: in the streamlit pass, a surviving row whose mapped
entry-date cell `"01/01/2020"` parses to 2020-01-01 is displayed with the
raw string `"01/01/2020"`, not the ISO rendering `"2020-01-01"` — the
display table holds text cells, so the `isinstance(x, date)` branch of the
formatter never fires. -/
theorem claim_C3_counterexample :
    (map_columns tblC3.headers).getCol .entry_date (normCols tblC3) = some "entry_date"
    ∧ parse_date_flexible fbNone "01/01/2020" = some ⟨2020, 1, 1⟩
    ∧ isoDate ⟨2020, 1, 1⟩ = "2020-01-01"
    ∧ (streamlitPass fbNone critAll tblC3).2 = [["01/01/2020"]]
    ∧ ("01/01/2020" : String) ≠ "2020-01-01" := by
  refine ⟨by decide, by decide, by decide, by decide, by decide⟩

/-- C3 amended: the claim holds of the nicegui variant — the `entry_date`
value of a display row is the parsed date rendered as ISO `YYYY-MM-DD`,
and the empty string when the cell does not parse; in the streamlit
variant the entry-date display cell is the raw cell string unchanged
(whenever the entry-date column is not also the mapped amount or link
column, whose reformats would rewrite the shared column). -/
theorem claim_C3_amended :
    (∀ fb m cols row c, m.getTruthy .entry_date = some c →
       (modernFinalize row (modernRowOf fb m cols row)).entry_date =
         some (match parse_date_flexible fb (getCell cols row c) with
               | some d => isoDate d
               | none => ""))
    ∧ (∀ m dcols c v, m.entry_date = some c →
        (∀ ac, m.judgment_amount = some ac → c ≠ ac) →
        (∀ lc, m.case_link = some lc → c ≠ lc) →
        sFmtCell m dcols c v = v) := by
  constructor
  · intro fb m cols row c hc
    have he : (modernFinalize row (modernRowOf fb m cols row)).entry_date =
        (modernRowOf fb m cols row).entry_date := by
      unfold modernFinalize
      split <;> rfl
    rw [he]
    show modernFieldVal fb m cols row .entry_date = _
    unfold modernFieldVal
    rw [hc]
    rfl
  · intro m dcols c v hed ham hlk
    have h1 : sFmtAmountStep m dcols c v = v := by
      unfold sFmtAmountStep
      cases hja : m.judgment_amount with
      | none => rfl
      | some ac =>
        show (if ac ∈ dcols ∧ c = ac then formatCurrency (parse_amount v) else v) = v
        rw [if_neg]
        rintro ⟨-, hceq⟩
        exact ham ac hja hceq
    have h2 : sFmtDateStep m dcols c v = v := by
      unfold sFmtDateStep
      cases m.entry_date with
      | none => rfl
      | some dc =>
        show (if dc ∈ dcols ∧ c = dc then sFmtDateCell v else v) = v
        split <;> rfl
    have h3 : sFmtLinkStep m dcols c v = v := by
      unfold sFmtLinkStep
      cases hcl : m.case_link with
      | none => rfl
      | some lc =>
        show (if lc ∈ dcols ∧ c = lc then sFmtLinkCell v else v) = v
        rw [if_neg]
        rintro ⟨-, hceq⟩
        exact hlk lc hcl hceq
    unfold sFmtCell
    rw [h1, h2, h3]

/-- C3 witness: the nicegui clause evaluated on the concrete surviving row
`["01/01/2020"]` yields the ISO string, and the streamlit clause leaves a
concrete entry-date cell untouched. -/
theorem claim_C3_witness :
    (modernFinalize ["01/01/2020"]
      (modernRowOf fbNone (map_columns tblC3.headers) (normCols tblC3) ["01/01/2020"])).entry_date
      = some "2020-01-01"
    ∧ sFmtCell (map_columns tblC3.headers) ["entry_date"] "entry_date" "01/01/2020"
      = "01/01/2020" := by
  constructor
  · have h := claim_C3_amended.1 fbNone (map_columns tblC3.headers) (normCols tblC3)
      ["01/01/2020"] "entry_date" (by decide)
    rw [h]
    decide
  · exact claim_C3_amended.2 (map_columns tblC3.headers) ["entry_date"] "entry_date" "01/01/2020"
      (by decide) (fun ac hac => by rw [show (map_columns tblC3.headers).judgment_amount = none from by decide] at hac; cases hac)
      (fun lc hlc => by rw [show (map_columns tblC3.headers).case_link = none from by decide] at hlc; cases hlc)

/-- C4 counterexample: in the nicegui pass on a table with no case-number
column, the display row still carries a `case_number` key (filled from the
row's first cell), so a Display Row can contain an unmapped field key. -/
theorem claim_C4_counterexample :
    (map_columns tblC4.headers).case_number = none
    ∧ (apply_filters_handler fbNone critAll (map_columns tblC4.headers) (normCols tblC4)
        tblC4.rows).map (fun r => r.get .case_number) = [some "Entered"] := by
  refine ⟨by decide, by decide⟩

/-- C4 amended: the streamlit display columns are exactly the mapped
columns, and every nicegui display-row key other than `case_number` is
present only when mapped; but `case_number` is always present in a nicegui
display row — when unmapped (or blank) it is filled with the raw row's
first cell truncated to 30 characters. -/
theorem claim_C4_amended :
    (∀ fb crit t c, c ∈ (streamlitPass fb crit t).1 →
       ∃ k : FieldKey, (map_columns t.headers).getCol k (normCols t) = some c)
    ∧ (∀ fb crit m cols rows r k, r ∈ apply_filters_handler fb crit m cols rows →
        k ≠ FieldKey.case_number → (r.get k).isSome = true → (m.getTruthy k).isSome = true)
    ∧ (∀ fb crit m cols rows r, r ∈ apply_filters_handler fb crit m cols rows →
        (r.get .case_number).isSome = true) := by
  refine ⟨?_, ?_, ?_⟩
  · intro fb crit t c hc
    have hc2 : c ∈ displayColsOf (map_columns t.headers) (normCols t) := hc
    unfold displayColsOf at hc2
    obtain ⟨k, hk, hkc⟩ := List.mem_filterMap.mp hc2
    exact ⟨k, hkc⟩
  · intro fb crit m cols rows r k hr hk hsome
    unfold apply_filters_handler at hr
    obtain ⟨row, hrow, hre⟩ := List.mem_map.mp hr
    rw [← hre, modernFinalize_get_ne _ _ _ hk, modernRowOf_get] at hsome
    unfold modernFieldVal at hsome
    cases ht : m.getTruthy k with
    | none => rw [ht] at hsome; cases hsome
    | some c => rfl
  · intro fb crit m cols rows r hr
    unfold apply_filters_handler at hr
    obtain ⟨row, hrow, hre⟩ := List.mem_map.mp hr
    rw [← hre]
    exact modernFinalize_cn_isSome row _

/-- C4 witness: the always-present `case_number` clause applied to the
concrete display row produced from the case-number-less table. -/
theorem claim_C4_witness :
    ((DRow.mk (some "Entered") (some "Entered") none none none none none none).get
      .case_number).isSome = true := by
  apply claim_C4_amended.2.2 fbNone critAll (map_columns tblC4.headers) (normCols tblC4) tblC4.rows
  decide

/-- C5 counterexample: on the spec's two-row end-to-end scenario the
streamlit pass returns exactly the first row with its amount formatted as
`"$50,000.00"`, but its entry-date cell is the raw `"01/01/2020"`, not the
expected `"2020-01-01"` (and the status cell was lowercased at load). -/
theorem claim_C5_counterexample :
    (streamlitPass fbNone critC5 tblC5).1 = ["case_number", "status", "judgment_amount", "entry_date"]
    ∧ (streamlitPass fbNone critC5 tblC5).2 = [["1A", "entered", "$50,000.00", "01/01/2020"]]
    ∧ ("01/01/2020" : String) ≠ "2020-01-01" := by
  refine ⟨by decide, by decide, by decide⟩

/-- C5 amended: the nicegui pass returns exactly the first row with amount
`"$50,000.00"` and date `"2020-01-01"` as the claim states; the streamlit
pass returns exactly the first row with amount `"$50,000.00"` but with the
raw date string `"01/01/2020"` and the status lowercased to `"entered"`. -/
theorem claim_C5_amended :
    modernPass fbNone critC5 tblC5 =
      [{ case_number := some "1A", case_status := some "Entered",
         judgment_amount := some "$50,000.00", entry_date := some "2020-01-01" }]
    ∧ (streamlitPass fbNone critC5 tblC5).2 = [["1A", "entered", "$50,000.00", "01/01/2020"]] := by
  refine ⟨by decide, by decide⟩
